import Mathlib

/-!
# Verification of the RAGNestorAssistant ingestion layer

A shallow embedding of the three ingestion modules of the repository
(`Libs/Parsers/DocumentsParser.py`, `Libs/Parsers/TelegramParser.py`,
`Libs/Parsers/VKParser.py`) together with proofs about the claims of the
specification.

Modelling conventions:
* Python values that may be `None` are `Option`; a raised exception is the
  `.error` branch of an `Except`; a function that returns an `Exception`
  object as a value (instead of raising it) also uses `Except`, which is
  noted at the definition.
* External capabilities (the unstructured file loaders, the Telegram client,
  the VK remote API) are passed in as function arguments, exactly as the
  specification treats them (opaque adapters).  They are modelled as pure
  functions: in particular `loader.load()` builds fresh `Document` objects on
  every call (langchain loaders re-parse, they do not cache), so two calls
  return structurally equal but distinct objects, and mutating the result of
  one call never affects the result of another.
* Python dictionaries with string keys are association lists in insertion
  order; `d[k] = v` is `dictSet`, membership of a key is `hasKey`.
* `time.sleep(pause)` and remote calls are recorded as events in a trace so
  that temporal claims about the fetch loop can be stated.
-/

set_option linter.unusedVariables false

/-- Python runtime value stored in a Document metadata mapping.  The three
parsers only ever store strings, ints, booleans, lists of strings, or
`None` (the result of `dict.get` on a missing key). -/
inductive MetaVal where
  | str (s : String)
  | int (n : Int)
  | bool (b : Bool)
  | strList (l : List String)
  | pynull
deriving DecidableEq, Repr

/-- langchain.schema.Document: a text payload plus a metadata mapping. -/
structure Document where
  page_content : String
  metadata : List (String × MetaVal)
deriving DecidableEq, Repr

/-- Python `d[k] = v` on a string-keyed dict: overwrite in place if the key
exists, otherwise append (insertion order is preserved). -/
def dictSet (m : List (String × MetaVal)) (k : String) (v : MetaVal) :
    List (String × MetaVal) :=
  if m.any (fun kv => kv.1 == k) then
    m.map (fun kv => if kv.1 == k then (k, v) else kv)
  else m ++ [(k, v)]

/-- Key membership in a metadata mapping (`k in d`). -/
def hasKey (m : List (String × MetaVal)) (k : String) : Bool :=
  m.any (fun kv => kv.1 == k)

/-- Value lookup in a metadata mapping (`d.get(k)`). -/
def dictGet (m : List (String × MetaVal)) (k : String) : Option MetaVal :=
  match m.find? (fun kv => kv.1 == k) with
  | some kv => some kv.2
  | none => none

/-!
## DocumentsParser.py

`pathlib.Path` is external; a path is modelled by the three observations the
module makes of it: `.name` (base name), `.suffix` (extension with dot, empty
when there is none), and its string form (`str(path)` and `.as_posix()`
coincide on POSIX, which is all this code distinguishes).
-/

/-- Observations of a `pathlib.Path` used by `DocumentsParser`. -/
structure PyPath where
  name : String
  suffix : String
  asStr : String
deriving DecidableEq, Repr

/-- Which per-format unstructured loader class was chosen. -/
inductive LoaderKind where
  | pdf
  | docx
  | md
  | pptx
deriving DecidableEq, Repr

/-- An instantiated unstructured loader: the constructor arguments that
`get_document_loader` passes to the per-format loader class. -/
structure UnstructuredLoader where
  kind : LoaderKind
  file_path : String
  mode : String
  strategy : String
  languages : List String
  include_page_breaks : Bool
deriving DecidableEq, Repr

/-- Error text of the unsupported-extension branch of `get_document_loader`
(the f-string interpolates the suffix of the path). -/
def unsupportedMsg (suffix : String) : String :=
  "Неподдерживаемый формат файла: " ++ suffix

/-- DocumentsParser.get_document_loader: dispatch on `Path(...).suffix`.
The source returns either a loader object or an `Exception` value (it does
not raise); `Except` models that sum.  Defaults in the source are
`mode = single`, `include_page_breaks = False`; `strategy = auto` and
`languages = [rus, eng]` are fixed at every call site. -/
def get_document_loader (document_path : PyPath) (mode : String)
    (include_page_breaks : Bool) : Except String UnstructuredLoader :=
  match document_path.suffix with
  | ".pdf" =>
      .ok { kind := .pdf, file_path := document_path.asStr, mode := mode,
            strategy := "auto", languages := ["rus", "eng"],
            include_page_breaks := include_page_breaks }
  | ".docx" =>
      .ok { kind := .docx, file_path := document_path.asStr, mode := mode,
            strategy := "auto", languages := ["rus", "eng"],
            include_page_breaks := include_page_breaks }
  | ".md" =>
      .ok { kind := .md, file_path := document_path.asStr, mode := mode,
            strategy := "auto", languages := ["rus", "eng"],
            include_page_breaks := include_page_breaks }
  | ".pptx" =>
      .ok { kind := .pptx, file_path := document_path.asStr, mode := mode,
            strategy := "auto", languages := ["rus", "eng"],
            include_page_breaks := include_page_breaks }
  | _ => .error (unsupportedMsg document_path.suffix)

/-- The in-place metadata assignments of the `for doc in loader.load():` loop
in `parse_document`: `doc.metadata["source"] = document_path.name`,
`doc.metadata["source_path"] = str(document_path)`,
`doc.metadata["type"] = str(doc.__class__.__name__)` (always `"Document"`
for langchain documents). -/
def stampDoc (document_path : PyPath) (doc : Document) : Document :=
  let m1 := dictSet doc.metadata "source" (.str document_path.name)
  let m2 := dictSet m1 "source_path" (.str document_path.asStr)
  let m3 := dictSet m2 "type" (.str "Document")
  { doc with metadata := m3 }

/-- The whole stamping loop, one `stampDoc` per document of the first load. -/
def stampLoop (document_path : PyPath) (docs : List Document) : List Document :=
  docs.map (stampDoc document_path)

/-- Message of the AttributeError raised when the unsupported-extension
branch returned an `Exception` value and the code then calls `.load()` on it. -/
def attrErrMsg : String :=
  "AttributeError: \x27Exception\x27 object has no attribute \x27load\x27"

/-- DocumentsParser.parse_document.  `load` is the external file-parsing
capability (`loader.load()`), pure (see the module comment): every call
re-parses and yields fresh `Document` objects.

The source stamps `source` / `source_path` / `type` onto the documents of a
FIRST `loader.load()` call, then executes `return loader.load()` — a SECOND
call whose fresh results were never stamped.  The stamped list is therefore
dead (`let stamped := ...` below), faithfully to the source.

Everything is wrapped in `try/except Exception`, which prints and returns the
exception value, so the function never raises: the `.error` branch of the
result is a RETURNED exception object. -/
def parse_document (load : UnstructuredLoader → Except String (List Document))
    (document_path : PyPath) : Except String (List Document) :=
  match get_document_loader document_path "single" false with
  | .error _ => .error attrErrMsg
  | .ok loader =>
      match load loader with
      | .error e => .error e
      | .ok docs =>
          let stamped := stampLoop document_path docs
          match load loader with
          | .error e => .error e
          | .ok docs2 => .ok docs2

/-- Outcome of `parse_documents_in_dir`: a returned document list, a returned
`Exception` value (the empty-aggregate case), or an exception that escaped
the function (the walk aborted). -/
inductive WalkResult where
  | docs (ds : List Document)
  | errValue (msg : String)
  | raised (msg : String)
deriving DecidableEq, Repr

/-- Message of the TypeError raised by `out.extend(docs)` when
`parse_document` returned an `Exception` value: exception objects are truthy
(`if docs:` passes) but not iterable. -/
def typeErrMsg : String :=
  "TypeError: \x27Exception\x27 object is not iterable"

/-- The `for doc in ... : docs = parse_document(doc); if docs: out.extend(docs)`
loop of `parse_documents_in_dir`.  An `.ok` result is a list: the empty list
is falsy and skipped, a non-empty one is appended.  An `.error` result is a
returned `Exception` value: truthy, so `out.extend` runs and raises
TypeError, which nothing catches — the loop (and the whole walk) aborts. -/
def walkLoop (load : UnstructuredLoader → Except String (List Document)) :
    List PyPath → List Document → Except String (List Document)
  | [], out => .ok out
  | entry :: rest, out =>
      match parse_document load entry with
      | .ok docs => walkLoop load rest (if docs.isEmpty then out else out ++ docs)
      | .error _ => .error typeErrMsg

/-- DocumentsParser.parse_documents_in_dir, applied to the entry list the
glob produced (directory iteration itself is external).  After the loop the
source returns `out` when non-empty, else the `Exception` value
`f"Неверный путь: {dir_path}"`. -/
def parse_documents_in_dir
    (load : UnstructuredLoader → Except String (List Document))
    (dir_path : String) (entries : List PyPath) : WalkResult :=
  match walkLoop load entries [] with
  | .error m => .raised m
  | .ok out =>
      if out.isEmpty then .errValue ("Неверный путь: " ++ dir_path)
      else .docs out

/-!
## TelegramParser.py
-/

/-- The observations `get_messages_from_chats` makes of a telethon message:
`sender_id`, `text` (nullable), `id`, `str(msg.date)` (pre-rendered string),
and the media class name when `msg.media` is set. -/
structure TgMsg where
  sender_id : Int
  text : Option String
  id : Int
  date : String
  media : Option String
deriving DecidableEq, Repr

/-- Body of the inner loop of `get_messages_from_chats`: builds one Document
from one message.  `text = msg.text if msg.text is not None else ""`;
`type` is the media class name if media is present, else the literal
`"text"`. -/
def tg_message_to_document (chat : String) (msg : TgMsg) : Document :=
  { page_content := match msg.text with | some s => s | none => ""
    metadata := [
      ("source", .int msg.sender_id),
      ("source_path", .str chat),
      ("message_id", .int msg.id),
      ("date", .str msg.date),
      ("type", .str (match msg.media with | some cls => cls | none => "text"))] }

/-- TelegramParser.get_messages_from_chats.  `iter_messages` is the external
chat-stream capability (`client.iter_messages(chat, limit)` drained to a
list); the function concatenates, per chat, one Document per message. -/
def get_messages_from_chats (iter_messages : String → Int → List TgMsg)
    (chats : List String) (messages_limit : Int) : List Document :=
  chats.flatMap (fun chat =>
    (iter_messages chat messages_limit).map (tg_message_to_document chat))

/-!
## VKParser.py
-/

/-- One VK attachment dict as observed: `att.get("type", "unknown")`; `none`
models a missing `type` key. -/
structure VKAtt where
  ty : Option String
deriving DecidableEq, Repr

/-- One raw VK message dict as observed by `_vk_message_to_document`:
every field is read with `msg.get(...)`, hence `Option`. -/
structure VKMsg where
  id : Option Int
  date : Option Int
  from_id : Option Int
  text : Option String
  attachments : Option (List VKAtt)
  fwd_messages : Option (List Unit)
deriving DecidableEq, Repr

/-- Python `x or ""` for an optional string: `None` and the empty string are
falsy, both yield `""`. -/
def pyOrEmpty : Option String → String
  | none => ""
  | some s => if s = "" then "" else s

/-- Python `x or []` for an optional list. -/
def pyOrNilAtt : Option (List VKAtt) → List VKAtt
  | none => []
  | some l => if l = [] then [] else l

/-- Python `bool(msg.get("fwd_messages"))`: `None` and `[]` are falsy. -/
def pyTruthyList : Option (List Unit) → Bool
  | none => false
  | some l => !l.isEmpty

/-- An optional int rendered as the metadata value Python stores
(`msg.get(k)` is the int itself or `None`). -/
def optIntVal : Option Int → MetaVal
  | some n => .int n
  | none => .pynull

/-- VKParser._vk_message_to_document: one raw message dict to one langchain
Document. -/
def _vk_message_to_document (msg : VKMsg) (peer_id : Int) : Document :=
  { page_content := pyOrEmpty msg.text
    metadata := [
      ("platform", .str "vk"),
      ("peer_id", .int peer_id),
      ("message_id", optIntVal msg.id),
      ("date", optIntVal msg.date),
      ("from_id", optIntVal msg.from_id),
      ("attachments", .strList ((pyOrNilAtt msg.attachments).map
        (fun att => att.ty.getD "unknown"))),
      ("has_forward", .bool (pyTruthyList msg.fwd_messages))] }

/-- Result of `vk.utils.resolveScreenName`: an empty (falsy) response, or an
object with a `type` string and an `object_id`. -/
inductive ResolveData where
  | empty
  | obj (ty : String) (object_id : Int)
deriving DecidableEq, Repr

/-- The two reassignments at the top of `_resolve_screen_name`:
`name = name.strip()`, then if it starts with the VK URL prefix keep only the
part after the last slash (`name.rsplit("/", 1)[-1]`). -/
def stripScreenName (name : String) : String :=
  let name1 := name.trim
  if name1.startsWith "https://vk.com/" then (name1.splitOn "/").getLastD name1
  else name1

/-- VKParser._resolve_screen_name.  `resolve` is the external name-resolution
endpoint; its `.error` branch is a raised network/API exception.  The whole
remote call sits inside `try/except Exception: return None`, so an endpoint
error is swallowed into `none`.  A `user` answer gives `object_id`, a `group`
answer gives `-object_id`, anything else falls through to the final
`return None`. -/
def _resolve_screen_name (resolve : String → Except String ResolveData)
    (name : String) : Option Int :=
  match resolve (stripScreenName name) with
  | .error _ => none
  | .ok .empty => none
  | .ok (.obj ty object_id) =>
      if ty = "user" then some object_id
      else if ty = "group" then some (-object_id)
      else none

/-- An element of the `peer_ids` argument: Python `int | str`. -/
inductive PeerInput where
  | int (n : Int)
  | str (s : String)
deriving DecidableEq, Repr

/-- Message of the ValueError raised when a screen name cannot be resolved
(the f-string interpolates the offending input). -/
def vkUnresolvedMsg (pid : String) : String :=
  "Не удалось распознать peer_id из \x27" ++ pid ++
    "\x27. Для бесед передавайте целочисленный peer_id."

/-- Message of the ValueError raised when a screen name resolves to a
community (negative id). -/
def vkCommunityMsg (pid : String) : String :=
  "Экранное имя \x27" ++ pid ++
    "\x27 указывает на сообщество. Передайте integer peer_id явным образом или используйте диалоги из messages.getConversations."

/-- VKParser._normalize_peer_ids.  Integers are appended unchanged; strings
are resolved via `_resolve_screen_name`; `None` raises ValueError naming the
input, a non-positive resolution raises the community ValueError; a raise
aborts the whole call, so the partially built list is discarded (`.error`). -/
def _normalize_peer_ids (resolve : String → Except String ResolveData) :
    List PeerInput → Except String (List Int)
  | [] => .ok []
  | .int n :: rest =>
      (_normalize_peer_ids resolve rest).map (fun out => n :: out)
  | .str s :: rest =>
      match _resolve_screen_name resolve s with
      | none => .error (vkUnresolvedMsg s)
      | some resolved =>
          if resolved > 0 then
            (_normalize_peer_ids resolve rest).map (fun out => resolved :: out)
          else .error (vkCommunityMsg s)

/-- Observable step of the fetch loop: a `messages.getHistory` remote call
with its `count` and `offset` arguments, or a `time.sleep(pause)`. -/
inductive FetchEvent where
  | call (count offset : Int)
  | sleep
deriving DecidableEq, Repr

/-- Result of `_fetch_history`: on success the accumulated raw messages plus
the event trace; on an uncaught remote error the propagated message plus the
events that had already happened. -/
abbrev FetchResult :=
  Except (String × List FetchEvent) (List VKMsg × List FetchEvent)

/-- The `while got < limit:` loop of `_fetch_history`.  `api` is the external
history endpoint (`vk.messages.getHistory(...).get("items", [])`); its
`.error` branch is a raised network/API exception, which nothing here
catches.  Per iteration: `count = min(per_call, limit - got)`; an empty batch
breaks before the sleep; otherwise the batch is appended, `got` and `offset`
advance by its length, the loop sleeps, and a short batch then breaks. -/
def fetchLoop (api : Int → Int → Int → Except String (List VKMsg))
    (peer_id per_call limit : Int) (got offset : Int) : FetchResult :=
  if h : got < limit then
    let count := min per_call (limit - got)
    match api peer_id count offset with
    | .error e => .error (e, [.call count offset])
    | .ok batch =>
        if hb : batch = [] then .ok ([], [.call count offset])
        else if (batch.length : Int) < count then
          .ok (batch, [.call count offset, .sleep])
        else
          match fetchLoop api peer_id per_call limit
              (got + batch.length) (offset + batch.length) with
          | .error (e, evs) => .error (e, .call count offset :: .sleep :: evs)
          | .ok (rest, evs) => .ok (batch ++ rest, .call count offset :: .sleep :: evs)
  else .ok ([], [])
termination_by (limit - got).toNat
decreasing_by
  simp_wf
  exact ⟨List.length_pos.mpr hb, h⟩

/-- VKParser._fetch_history: `per_call = 200 if limit > 200 else limit`, then
the loop from `got = offset = 0`. -/
def _fetch_history (api : Int → Int → Int → Except String (List VKMsg))
    (peer_id : Int) (limit : Int) : FetchResult :=
  let per_call : Int := if limit > 200 then 200 else limit
  fetchLoop api peer_id per_call limit 0 0

/-- Event trace of a fetch outcome (also defined on the error branch: those
events happened before the exception propagated). -/
def eventsOf : FetchResult → List FetchEvent
  | .error (_, evs) => evs
  | .ok (_, evs) => evs

/-- Raw messages of a successful fetch outcome. -/
def itemsOf : FetchResult → List VKMsg
  | .error _ => []
  | .ok (items, _) => items

/-- The `(count, offset)` arguments of the remote calls in a trace, in order. -/
def callsOf (evs : List FetchEvent) : List (Int × Int) :=
  evs.filterMap (fun ev => match ev with
    | .call c o => some (c, o)
    | .sleep => none)

/-- Number of remote calls in a trace. -/
def numCalls (evs : List FetchEvent) : Nat := (callsOf evs).length

/-- A trace in which remote calls and sleeps alternate starting with a call:
`(call sleep)*` optionally ending in a lone call.  Equivalently: every two
remote calls are separated by a sleep, and every call except possibly the
final one is followed by a sleep. -/
inductive CallSleepAlt : List FetchEvent → Prop where
  | nil : CallSleepAlt []
  | single (c o : Int) : CallSleepAlt [.call c o]
  | step (c o : Int) (evs : List FetchEvent) (h : CallSleepAlt evs) :
      CallSleepAlt (.call c o :: .sleep :: evs)

/-!
## Concrete fixtures

Closed instances of the external capabilities and inputs, used by witnesses
and counterexamples.
-/

/-- A markdown file entry. -/
def mdPath : PyPath := { name := "a.md", suffix := ".md", asStr := "docs/a.md" }

/-- A file entry with an unsupported extension. -/
def txtPath : PyPath := { name := "b.txt", suffix := ".txt", asStr := "docs/b.txt" }

/-- The single block the fixture loader yields for the markdown file, with the
metadata the unstructured backend itself sets. -/
def mdBlock : Document :=
  { page_content := "hello", metadata := [("source", .str "docs/a.md")] }

/-- A fixture file-parsing capability: markdown parses to one block, every
other format fails in the backend. -/
def loadEx : UnstructuredLoader → Except String (List Document) :=
  fun loader =>
    if loader.kind = .md then .ok [mdBlock] else .error "unstructured backend failure"

/-- A concrete VK message with text and no attachments. -/
def vkMsgEx : VKMsg :=
  { id := some 1, date := some 1700000000, from_id := some 42,
    text := some "привет", attachments := some [], fwd_messages := none }

/-- A VK message dict with every optional field absent. -/
def vkMsgBlank : VKMsg :=
  { id := none, date := none, from_id := none, text := none,
    attachments := none, fwd_messages := none }

/-- A concrete Telegram message without text or media. -/
def tgMsgEx : TgMsg :=
  { sender_id := 7, text := none, id := 5, date := "2025-01-01", media := none }

/-- History endpoint whose dialogs are always empty. -/
def apiEmpty : Int → Int → Int → Except String (List VKMsg) := fun _ _ _ => .ok []

/-- History endpoint that always returns a full batch of the requested size. -/
def apiFull : Int → Int → Int → Except String (List VKMsg) :=
  fun _ count _ => .ok (List.replicate count.toNat vkMsgBlank)

/-- History endpoint that returns a full first page and a short (120-item)
second page. -/
def apiShort2 : Int → Int → Int → Except String (List VKMsg) :=
  fun _ _ offset =>
    if offset = 0 then .ok (List.replicate 200 vkMsgBlank)
    else .ok (List.replicate 120 vkMsgBlank)

/-- History endpoint whose every call raises a network error. -/
def apiDown : Int → Int → Int → Except String (List VKMsg) :=
  fun _ _ _ => .error "ConnectionError: network unreachable"

/-- Name-resolution endpoint whose every call raises a network error. -/
def resolveDown : String → Except String ResolveData :=
  fun _ => .error "ConnectionError: network unreachable"

/-- Name-resolution endpoint that resolves everything to user 777. -/
def resolveUser777 : String → Except String ResolveData :=
  fun _ => .ok (.obj "user" 777)

/-- Name-resolution endpoint that resolves everything to community 5. -/
def resolveGroup5 : String → Except String ResolveData :=
  fun _ => .ok (.obj "group" 5)

/-- Name-resolution endpoint that finds nothing. -/
def resolveNothing : String → Except String ResolveData :=
  fun _ => .ok .empty

/-- A peer input string that `_normalize_peer_ids` rejects: its resolution
fails (None) or yields a non-positive id. -/
def badPeer (resolve : String → Except String ResolveData) (s : String) : Prop :=
  _resolve_screen_name resolve s = none ∨
    ∃ u, _resolve_screen_name resolve s = some u ∧ u ≤ 0

/-!
## Helper lemmas about the fetch loop

One rewriting lemma per control path of the loop body, so that statements
about arbitrary endpoint behaviour can be proved by strong induction on the
remaining budget `(limit - got).toNat`.
-/

/-- Loop guard fails: no call, no items, no events. -/
theorem fetchLoop_stop (api : Int → Int → Int → Except String (List VKMsg))
    (peer_id per_call limit got offset : Int) (h : ¬ got < limit) :
    fetchLoop api peer_id per_call limit got offset = .ok ([], []) := by
  rw [fetchLoop.eq_def]
  simp [h]

/-- The remote call raises: the error propagates after a single call event. -/
theorem fetchLoop_err (api : Int → Int → Int → Except String (List VKMsg))
    (peer_id per_call limit got offset count : Int) (e : String)
    (h : got < limit) (hc : count = min per_call (limit - got))
    (ha : api peer_id count offset = .error e) :
    fetchLoop api peer_id per_call limit got offset =
      .error (e, [.call count offset]) := by
  subst hc
  rw [fetchLoop.eq_def]
  simp [h, ha]

/-- The batch is empty: break before the sleep. -/
theorem fetchLoop_empty (api : Int → Int → Int → Except String (List VKMsg))
    (peer_id per_call limit got offset count : Int)
    (h : got < limit) (hc : count = min per_call (limit - got))
    (ha : api peer_id count offset = .ok []) :
    fetchLoop api peer_id per_call limit got offset =
      .ok ([], [.call count offset]) := by
  subst hc
  rw [fetchLoop.eq_def]
  simp [h, ha]

/-- The batch is short but non-empty: append, sleep, then break. -/
theorem fetchLoop_short (api : Int → Int → Int → Except String (List VKMsg))
    (peer_id per_call limit got offset count : Int) (batch : List VKMsg)
    (h : got < limit) (hc : count = min per_call (limit - got))
    (ha : api peer_id count offset = .ok batch) (hne : batch ≠ [])
    (hs : (batch.length : Int) < count) :
    fetchLoop api peer_id per_call limit got offset =
      .ok (batch, [.call count offset, .sleep]) := by
  subst hc
  rw [fetchLoop.eq_def]
  simp [h, ha, hne, hs]

/-- A full batch followed by a successful rest of the loop. -/
theorem fetchLoop_full_ok (api : Int → Int → Int → Except String (List VKMsg))
    (peer_id per_call limit got offset count : Int) (batch rest : List VKMsg)
    (evs : List FetchEvent)
    (h : got < limit) (hc : count = min per_call (limit - got))
    (ha : api peer_id count offset = .ok batch) (hne : batch ≠ [])
    (hs : ¬ (batch.length : Int) < count)
    (hr : fetchLoop api peer_id per_call limit
        (got + batch.length) (offset + batch.length) = .ok (rest, evs)) :
    fetchLoop api peer_id per_call limit got offset =
      .ok (batch ++ rest, .call count offset :: .sleep :: evs) := by
  subst hc
  rw [fetchLoop.eq_def]
  simp [h, ha, hne, hs, hr]

/-- A full batch followed by a failing rest of the loop. -/
theorem fetchLoop_full_err (api : Int → Int → Int → Except String (List VKMsg))
    (peer_id per_call limit got offset count : Int) (batch : List VKMsg)
    (e : String) (evs : List FetchEvent)
    (h : got < limit) (hc : count = min per_call (limit - got))
    (ha : api peer_id count offset = .ok batch) (hne : batch ≠ [])
    (hs : ¬ (batch.length : Int) < count)
    (hr : fetchLoop api peer_id per_call limit
        (got + batch.length) (offset + batch.length) = .error (e, evs)) :
    fetchLoop api peer_id per_call limit got offset =
      .error (e, .call count offset :: .sleep :: evs) := by
  subst hc
  rw [fetchLoop.eq_def]
  simp [h, ha, hne, hs, hr]

/-- A full batch: the trace is the call, the sleep, then the rest of the
trace, whether or not the rest of the loop eventually fails. -/
theorem fetchLoop_full_events (api : Int → Int → Int → Except String (List VKMsg))
    (peer_id per_call limit got offset count : Int) (batch : List VKMsg)
    (h : got < limit) (hc : count = min per_call (limit - got))
    (ha : api peer_id count offset = .ok batch) (hne : batch ≠ [])
    (hs : ¬ (batch.length : Int) < count) :
    eventsOf (fetchLoop api peer_id per_call limit got offset) =
      .call count offset :: .sleep ::
        eventsOf (fetchLoop api peer_id per_call limit
          (got + batch.length) (offset + batch.length)) := by
  cases hr : fetchLoop api peer_id per_call limit
      (got + batch.length) (offset + batch.length) with
  | error p =>
      obtain ⟨e, evs⟩ := p
      rw [fetchLoop_full_err api peer_id per_call limit got offset count batch e evs
        h hc ha hne hs hr]
      simp [eventsOf]
  | ok p =>
      obtain ⟨rest, evs⟩ := p
      rw [fetchLoop_full_ok api peer_id per_call limit got offset count batch rest evs
        h hc ha hne hs hr]
      simp [eventsOf]

/-- Remote-call budget: the loop issues at most `(limit - got).toNat` calls
from state `got` (each non-final call consumes at least one message of the
budget), on the success and on the error path alike. -/
theorem fetchLoop_numCalls (api : Int → Int → Int → Except String (List VKMsg))
    (peer_id per_call limit : Int) :
    ∀ (n : Nat) (got offset : Int), (limit - got).toNat = n →
      numCalls (eventsOf (fetchLoop api peer_id per_call limit got offset)) ≤ n := by
  intro n
  induction n using Nat.strong_induction_on with
  | _ n ih =>
    intro got offset hn
    by_cases h : got < limit
    · cases hapi : api peer_id (min per_call (limit - got)) offset with
      | error e =>
          rw [fetchLoop_err api peer_id per_call limit got offset _ e h rfl hapi]
          simp [eventsOf, numCalls, callsOf]
          omega
      | ok batch =>
          by_cases hb : batch = []
          · subst hb
            rw [fetchLoop_empty api peer_id per_call limit got offset _ h rfl hapi]
            simp [eventsOf, numCalls, callsOf]
            omega
          · by_cases hs : (batch.length : Int) < min per_call (limit - got)
            · rw [fetchLoop_short api peer_id per_call limit got offset _ batch
                h rfl hapi hb hs]
              simp [eventsOf, numCalls, callsOf]
              omega
            · rw [fetchLoop_full_events api peer_id per_call limit got offset _ batch
                h rfl hapi hb hs]
              have hlen : 0 < batch.length := List.length_pos.mpr hb
              have hlt : (limit - (got + batch.length)).toNat < n := by omega
              have hrec := ih _ hlt (got + batch.length) (offset + batch.length) rfl
              simp [numCalls, callsOf] at hrec ⊢
              omega
    · rw [fetchLoop_stop api peer_id per_call limit got offset h]
      simp [eventsOf, numCalls, callsOf]

/-- Every remote call of the loop requests exactly
`min 200 (limit - offset)` messages, where the `offset` of the call equals the
number of messages fetched before it (`got` and `offset` advance in
lockstep from `0`, so `got = offset` throughout). -/
theorem fetchLoop_call_count (api : Int → Int → Int → Except String (List VKMsg))
    (peer_id per_call limit : Int) (hpc : per_call = min 200 limit) :
    ∀ (n : Nat) (got offset : Int), (limit - got).toNat = n → 0 ≤ got →
      got = offset →
      ∀ c o, FetchEvent.call c o ∈
          eventsOf (fetchLoop api peer_id per_call limit got offset) →
        c = min 200 (limit - o) := by
  intro n
  induction n using Nat.strong_induction_on with
  | _ n ih =>
    intro got offset hn hg he c o hmem
    by_cases h : got < limit
    · cases hapi : api peer_id (min per_call (limit - got)) offset with
      | error e =>
          rw [fetchLoop_err api peer_id per_call limit got offset _ e h rfl hapi]
            at hmem
          simp [eventsOf] at hmem
          obtain ⟨hc, ho⟩ := hmem
          omega
      | ok batch =>
          by_cases hb : batch = []
          · subst hb
            rw [fetchLoop_empty api peer_id per_call limit got offset _ h rfl hapi]
              at hmem
            simp [eventsOf] at hmem
            obtain ⟨hc, ho⟩ := hmem
            omega
          · by_cases hs : (batch.length : Int) < min per_call (limit - got)
            · rw [fetchLoop_short api peer_id per_call limit got offset _ batch
                h rfl hapi hb hs] at hmem
              simp [eventsOf] at hmem
              obtain ⟨hc, ho⟩ := hmem
              omega
            · rw [fetchLoop_full_events api peer_id per_call limit got offset _ batch
                h rfl hapi hb hs] at hmem
              have hlen : 0 < batch.length := List.length_pos.mpr hb
              simp at hmem
              rcases hmem with ⟨hc, ho⟩ | hmem
              · omega
              · have hlt : (limit - (got + batch.length)).toNat < n := by omega
                exact ih _ hlt (got + batch.length) (offset + batch.length) rfl
                  (by omega) (by omega) c o hmem
    · rw [fetchLoop_stop api peer_id per_call limit got offset h] at hmem
      simp [eventsOf] at hmem

/-- Shape of a successful trace: calls and sleeps alternate (`(call sleep)*`,
optionally ending in a lone call), and the trace ends in a call without a
following sleep only when that call returned an empty batch — every
non-empty batch, including a terminal short one, is followed by a sleep. -/
theorem fetchLoop_shape (api : Int → Int → Int → Except String (List VKMsg))
    (peer_id per_call limit : Int) :
    ∀ (n : Nat) (got offset : Int), (limit - got).toNat = n →
      ∀ items evs,
        fetchLoop api peer_id per_call limit got offset = .ok (items, evs) →
        CallSleepAlt evs ∧
          ∀ c o, evs.getLast? = some (.call c o) → api peer_id c o = .ok [] := by
  intro n
  induction n using Nat.strong_induction_on with
  | _ n ih =>
    intro got offset hn items evs hok
    by_cases h : got < limit
    · cases hapi : api peer_id (min per_call (limit - got)) offset with
      | error e =>
          rw [fetchLoop_err api peer_id per_call limit got offset _ e h rfl hapi]
            at hok
          exact absurd hok (by simp)
      | ok batch =>
          by_cases hb : batch = []
          · subst hb
            rw [fetchLoop_empty api peer_id per_call limit got offset _ h rfl hapi]
              at hok
            simp only [Except.ok.injEq, Prod.mk.injEq] at hok
            obtain ⟨hi, hev⟩ := hok
            subst hev
            refine ⟨CallSleepAlt.single _ _, ?_⟩
            intro c o hlast
            simp only [List.getLast?_singleton, Option.some.injEq,
              FetchEvent.call.injEq] at hlast
            obtain ⟨hc, ho⟩ := hlast
            rw [← hc, ← ho]
            exact hapi
          · by_cases hs : (batch.length : Int) < min per_call (limit - got)
            · rw [fetchLoop_short api peer_id per_call limit got offset _ batch
                h rfl hapi hb hs] at hok
              simp only [Except.ok.injEq, Prod.mk.injEq] at hok
              obtain ⟨hi, hev⟩ := hok
              subst hev
              refine ⟨CallSleepAlt.step _ _ [] CallSleepAlt.nil, ?_⟩
              intro c o hlast
              simp [List.getLast?_cons_cons, List.getLast?_singleton] at hlast
            · cases hrec : fetchLoop api peer_id per_call limit
                  (got + batch.length) (offset + batch.length) with
              | error p =>
                  obtain ⟨e, evs2⟩ := p
                  rw [fetchLoop_full_err api peer_id per_call limit got offset _
                    batch e evs2 h rfl hapi hb hs hrec] at hok
                  exact absurd hok (by simp)
              | ok p =>
                  obtain ⟨rest, evs2⟩ := p
                  rw [fetchLoop_full_ok api peer_id per_call limit got offset _
                    batch rest evs2 h rfl hapi hb hs hrec] at hok
                  simp only [Except.ok.injEq, Prod.mk.injEq] at hok
                  obtain ⟨hi, hev⟩ := hok
                  subst hev
                  have hlen : 0 < batch.length := List.length_pos.mpr hb
                  have hlt : (limit - (got + batch.length)).toNat < n := by omega
                  have IH := ih _ hlt (got + batch.length) (offset + batch.length)
                    rfl rest evs2 hrec
                  refine ⟨CallSleepAlt.step _ _ evs2 IH.1, ?_⟩
                  intro c o hlast
                  cases evs2 with
                  | nil => simp [List.getLast?_cons_cons] at hlast
                  | cons ev2 l2 =>
                      rw [List.getLast?_cons_cons, List.getLast?_cons_cons] at hlast
                      exact IH.2 c o hlast
    · rw [fetchLoop_stop api peer_id per_call limit got offset h] at hok
      simp only [Except.ok.injEq, Prod.mk.injEq] at hok
      obtain ⟨hi, hev⟩ := hok
      subst hev
      refine ⟨CallSleepAlt.nil, ?_⟩
      intro c o hlast
      simp at hlast

/-- When the loop propagates a remote error, the trace ends exactly at the
failing call: nothing follows it — no retry, no backoff — and the propagated
error is the one that call raised. -/
theorem fetchLoop_error_last (api : Int → Int → Int → Except String (List VKMsg))
    (peer_id per_call limit : Int) :
    ∀ (n : Nat) (got offset : Int), (limit - got).toNat = n →
      ∀ e evs,
        fetchLoop api peer_id per_call limit got offset = .error (e, evs) →
        ∃ c o, evs.getLast? = some (.call c o) ∧ api peer_id c o = .error e := by
  intro n
  induction n using Nat.strong_induction_on with
  | _ n ih =>
    intro got offset hn e evs herr
    by_cases h : got < limit
    · cases hapi : api peer_id (min per_call (limit - got)) offset with
      | error e2 =>
          rw [fetchLoop_err api peer_id per_call limit got offset _ e2 h rfl hapi]
            at herr
          simp only [Except.error.injEq, Prod.mk.injEq] at herr
          obtain ⟨he2, hev⟩ := herr
          subst hev
          exact ⟨_, _, List.getLast?_singleton _, by rw [he2] at hapi; exact hapi⟩
      | ok batch =>
          by_cases hb : batch = []
          · subst hb
            rw [fetchLoop_empty api peer_id per_call limit got offset _ h rfl hapi]
              at herr
            exact absurd herr (by simp)
          · by_cases hs : (batch.length : Int) < min per_call (limit - got)
            · rw [fetchLoop_short api peer_id per_call limit got offset _ batch
                h rfl hapi hb hs] at herr
              exact absurd herr (by simp)
            · cases hrec : fetchLoop api peer_id per_call limit
                  (got + batch.length) (offset + batch.length) with
              | error p =>
                  obtain ⟨e2, evs2⟩ := p
                  rw [fetchLoop_full_err api peer_id per_call limit got offset _
                    batch e2 evs2 h rfl hapi hb hs hrec] at herr
                  simp only [Except.error.injEq, Prod.mk.injEq] at herr
                  obtain ⟨he2, hev⟩ := herr
                  subst hev
                  have hlen : 0 < batch.length := List.length_pos.mpr hb
                  have hlt : (limit - (got + batch.length)).toNat < n := by omega
                  obtain ⟨c, o, hl, ha⟩ := ih _ hlt (got + batch.length)
                    (offset + batch.length) rfl e2 evs2 hrec
                  refine ⟨c, o, ?_, by rw [he2] at ha; exact ha⟩
                  cases evs2 with
                  | nil => simp at hl
                  | cons ev2 l2 =>
                      rw [List.getLast?_cons_cons, List.getLast?_cons_cons]
                      exact hl
              | ok p =>
                  obtain ⟨rest, evs2⟩ := p
                  rw [fetchLoop_full_ok api peer_id per_call limit got offset _
                    batch rest evs2 h rfl hapi hb hs hrec] at herr
                  exact absurd herr (by simp)
    · rw [fetchLoop_stop api peer_id per_call limit got offset h] at herr
      exact absurd herr (by simp)

/-!
## Claim theorems
-/

/-- C9: for every path whose extension is one of `.pdf`, `.docx`, `.md`,
`.pptx`, `get_document_loader` returns the corresponding per-format loader
invoked with `mode`, `languages = [rus, eng]` and `include_page_breaks`
threaded through unchanged (and the fixed `strategy = auto`); for any other
extension it returns an error value whose message names that exact
extension. -/
theorem c9_loader_dispatch (p : PyPath) (mode : String) (ipb : Bool) :
    (p.suffix = ".pdf" → get_document_loader p mode ipb =
      .ok { kind := .pdf, file_path := p.asStr, mode := mode,
            strategy := "auto", languages := ["rus", "eng"],
            include_page_breaks := ipb }) ∧
    (p.suffix = ".docx" → get_document_loader p mode ipb =
      .ok { kind := .docx, file_path := p.asStr, mode := mode,
            strategy := "auto", languages := ["rus", "eng"],
            include_page_breaks := ipb }) ∧
    (p.suffix = ".md" → get_document_loader p mode ipb =
      .ok { kind := .md, file_path := p.asStr, mode := mode,
            strategy := "auto", languages := ["rus", "eng"],
            include_page_breaks := ipb }) ∧
    (p.suffix = ".pptx" → get_document_loader p mode ipb =
      .ok { kind := .pptx, file_path := p.asStr, mode := mode,
            strategy := "auto", languages := ["rus", "eng"],
            include_page_breaks := ipb }) ∧
    (p.suffix ∉ [".pdf", ".docx", ".md", ".pptx"] →
      get_document_loader p mode ipb =
        .error ("Неподдерживаемый формат файла: " ++ p.suffix)) := by
  refine ⟨?_, ?_, ?_, ?_, ?_⟩ <;> intro h
  · simp [get_document_loader, h]
  · simp [get_document_loader, h]
  · simp [get_document_loader, h]
  · simp [get_document_loader, h]
  · simp only [List.mem_cons, List.not_mem_nil, or_false, not_or] at h
    obtain ⟨h1, h2, h3, h4⟩ := h
    unfold get_document_loader
    split
    · exact absurd (by assumption) h1
    · exact absurd (by assumption) h2
    · exact absurd (by assumption) h3
    · exact absurd (by assumption) h4
    · simp [unsupportedMsg]

/-- Witness for C9: the markdown loader is built with the given mode and
page-break flag, and an unsupported `.txt` entry yields the error naming
`.txt`. -/
theorem c9_loader_dispatch_witness :
    get_document_loader mdPath "elements" true =
      .ok { kind := .md, file_path := "docs/a.md", mode := "elements",
            strategy := "auto", languages := ["rus", "eng"],
            include_page_breaks := true } ∧
    get_document_loader txtPath "single" false =
      .error ("Неподдерживаемый формат файла: " ++ ".txt") := by
  have h1 := c9_loader_dispatch mdPath "elements" true
  have h2 := c9_loader_dispatch txtPath "single" false
  exact ⟨h1.2.2.1 rfl, h2.2.2.2.2 (by decide)⟩

/-- C10: peer-identifier normalization never validates integer inputs — any
all-integer list (zeroes and negatives included) is returned verbatim in
order — while a string input resolving to a non-positive (community) id is
rejected with the community error. -/
theorem c10_int_passthrough :
    (∀ (resolve : String → Except String ResolveData) (ns : List Int),
        _normalize_peer_ids resolve (ns.map PeerInput.int) = .ok ns) ∧
    (∀ (resolve : String → Except String ResolveData) (s : String) (r : Int),
        _resolve_screen_name resolve s = some r → r ≤ 0 →
        _normalize_peer_ids resolve [PeerInput.str s] =
          .error (vkCommunityMsg s)) := by
  constructor
  · intro resolve ns
    induction ns with
    | nil => rfl
    | cons n rest ihr => simp [_normalize_peer_ids, ihr, Except.map]
  · intro resolve s r hr hle
    simp [_normalize_peer_ids, hr, show ¬ r > 0 by omega]

/-- Witness for C10: zero and negative integers pass through untouched under
a resolver that would reject any screen name, and that same resolver rejects
a string input. -/
theorem c10_int_passthrough_witness :
    _normalize_peer_ids resolveGroup5
        [PeerInput.int 0, PeerInput.int (-5), PeerInput.int 123] =
      .ok [0, -5, 123] ∧
    _normalize_peer_ids resolveGroup5 [PeerInput.str "club"] =
      .error (vkCommunityMsg "club") := by
  have h := c10_int_passthrough
  exact ⟨h.1 resolveGroup5 [0, -5, 123], h.2 resolveGroup5 "club" (-5) rfl (by norm_num)⟩

/-- C5: integer entries pass through; a string entry resolving to a positive
user id is accepted; a non-positive (community) or failed resolution raises
an error whose message names the offending input; and any single invalid
entry anywhere in the list aborts the whole call with an error, so no
partial peer list is ever returned. -/
theorem c5_normalize_atomic (resolve : String → Except String ResolveData) :
    (∀ (n u : Int) (s : String),
        _resolve_screen_name resolve s = some u → 0 < u →
        _normalize_peer_ids resolve [PeerInput.int n, PeerInput.str s] =
          .ok [n, u]) ∧
    (∀ (n u : Int) (s : String),
        _resolve_screen_name resolve s = some u → u ≤ 0 →
        ∃ pre post, _normalize_peer_ids resolve [PeerInput.int n, PeerInput.str s] =
          .error (pre ++ s ++ post)) ∧
    (∀ (n : Int) (s : String),
        _resolve_screen_name resolve s = none →
        ∃ pre post, _normalize_peer_ids resolve [PeerInput.int n, PeerInput.str s] =
          .error (pre ++ s ++ post)) ∧
    (∀ l : List PeerInput,
        (∃ s, PeerInput.str s ∈ l ∧ badPeer resolve s) →
        ∃ m, _normalize_peer_ids resolve l = .error m) := by
  refine ⟨?_, ?_, ?_, ?_⟩
  · intro n u s hr hu
    simp [_normalize_peer_ids, hr, show u > 0 from hu, Except.map]
  · intro n u s hr hu
    refine ⟨"Экранное имя \x27",
      "\x27 указывает на сообщество. Передайте integer peer_id явным образом или используйте диалоги из messages.getConversations.",
      ?_⟩
    simp [_normalize_peer_ids, hr, show ¬ u > 0 by omega, Except.map, vkCommunityMsg]
  · intro n s hr
    refine ⟨"Не удалось распознать peer_id из \x27",
      "\x27. Для бесед передавайте целочисленный peer_id.", ?_⟩
    simp [_normalize_peer_ids, hr, Except.map, vkUnresolvedMsg]
  · intro l hex
    induction l with
    | nil =>
        obtain ⟨s, hs, _⟩ := hex
        simp at hs
    | cons head rest ihl =>
        obtain ⟨s, hs, hbad⟩ := hex
        cases head with
        | int n =>
            have hrest : PeerInput.str s ∈ rest := by
              rcases List.mem_cons.mp hs with heq | hmem
              · cases heq
              · exact hmem
            obtain ⟨m, hm⟩ := ihl ⟨s, hrest, hbad⟩
            exact ⟨m, by simp [_normalize_peer_ids, hm, Except.map]⟩
        | str t =>
            cases hres : _resolve_screen_name resolve t with
            | none =>
                exact ⟨vkUnresolvedMsg t, by simp [_normalize_peer_ids, hres]⟩
            | some u =>
                by_cases hu : u > 0
                · have hrest : PeerInput.str s ∈ rest := by
                    rcases List.mem_cons.mp hs with heq | hmem
                    · exfalso
                      injection heq with hst
                      subst hst
                      rcases hbad with hnone | ⟨u2, hu2, hle⟩
                      · rw [hnone] at hres
                        cases hres
                      · rw [hu2] at hres
                        injection hres with he
                        omega
                    · exact hmem
                  obtain ⟨m, hm⟩ := ihl ⟨s, hrest, hbad⟩
                  exact ⟨m, by simp [_normalize_peer_ids, hres, hu, hm, Except.map]⟩
                · exact ⟨vkCommunityMsg t, by simp [_normalize_peer_ids, hres, hu]⟩

/-- Witness for C5: the example shapes of the spec under three concrete
resolvers — a user resolution is accepted after an integer entry, a
community resolution and a failed resolution abort with an error. -/
theorem c5_normalize_atomic_witness :
    _normalize_peer_ids resolveUser777
        [PeerInput.int 123, PeerInput.str "https://vk.com/someuser"] =
      .ok [123, 777] ∧
    (∃ m, _normalize_peer_ids resolveGroup5
        [PeerInput.int 123, PeerInput.str "club"] = .error m) ∧
    (∃ m, _normalize_peer_ids resolveNothing
        [PeerInput.int 123, PeerInput.str "ghost"] = .error m) := by
  refine ⟨?_, ?_, ?_⟩
  · exact (c5_normalize_atomic resolveUser777).1 123 777 "https://vk.com/someuser"
      rfl (by norm_num)
  · obtain ⟨pre, post, h⟩ := (c5_normalize_atomic resolveGroup5).2.1 123 (-5) "club"
      rfl (by norm_num)
    exact ⟨pre ++ "club" ++ post, h⟩
  · obtain ⟨pre, post, h⟩ := (c5_normalize_atomic resolveNothing).2.2.1 123 "ghost" rfl
    exact ⟨pre ++ "ghost" ++ post, h⟩

/-- C1 counterexample: the claim says the metadata of every emitted Document
contains `source` and `type`, but a Document emitted by the VK normalization
path contains neither key. -/
theorem c1_counterexample :
    hasKey (_vk_message_to_document vkMsgEx 123).metadata "source" = false ∧
    hasKey (_vk_message_to_document vkMsgEx 123).metadata "type" = false := by
  decide

/-- C1 amended: every Document emitted by the Telegram and VK normalization
paths has string content with the empty-string fallback and a non-empty
metadata mapping; the Telegram metadata contains `source` and `type`,
while the VK metadata contains `platform` and `peer_id` but neither
`source` nor `type`; the file-parsing path returns the external
blocks exactly as the loader produced them. -/
theorem c1_amended (tg : TgMsg) (chat : String) (vm : VKMsg) (peer : Int) :
    ((tg_message_to_document chat tg).metadata ≠ [] ∧
      hasKey (tg_message_to_document chat tg).metadata "source" = true ∧
      hasKey (tg_message_to_document chat tg).metadata "type" = true ∧
      (tg.text = none → (tg_message_to_document chat tg).page_content = "") ∧
      (∀ s, tg.text = some s → (tg_message_to_document chat tg).page_content = s)) ∧
    ((_vk_message_to_document vm peer).metadata ≠ [] ∧
      hasKey (_vk_message_to_document vm peer).metadata "platform" = true ∧
      hasKey (_vk_message_to_document vm peer).metadata "peer_id" = true ∧
      hasKey (_vk_message_to_document vm peer).metadata "source" = false ∧
      hasKey (_vk_message_to_document vm peer).metadata "type" = false ∧
      ((vm.text = none ∨ vm.text = some "") →
        (_vk_message_to_document vm peer).page_content = "") ∧
      (∀ s, vm.text = some s → s ≠ "" →
        (_vk_message_to_document vm peer).page_content = s)) ∧
    (∀ (load : UnstructuredLoader → Except String (List Document)) (p : PyPath)
        (ds : List Document), parse_document load p = .ok ds →
      ∃ loader, get_document_loader p "single" false = .ok loader ∧
        load loader = .ok ds) := by
  refine ⟨⟨?_, ?_, ?_, ?_, ?_⟩, ⟨?_, ?_, ?_, ?_, ?_, ?_, ?_⟩, ?_⟩
  · simp [tg_message_to_document]
  · simp [tg_message_to_document, hasKey]
  · simp [tg_message_to_document, hasKey]
  · intro h
    simp [tg_message_to_document, h]
  · intro s h
    simp [tg_message_to_document, h]
  · simp [_vk_message_to_document]
  · simp [_vk_message_to_document, hasKey]
  · simp [_vk_message_to_document, hasKey]
  · simp [_vk_message_to_document, hasKey]
  · simp [_vk_message_to_document, hasKey]
  · intro h
    rcases h with h | h <;> simp [_vk_message_to_document, pyOrEmpty, h]
  · intro s h hs
    simp [_vk_message_to_document, pyOrEmpty, h, hs]
  · intro load p ds hok
    cases hg : get_document_loader p "single" false with
    | error e =>
        simp [parse_document, hg] at hok
    | ok loader =>
        cases hl : load loader with
        | error e => simp [parse_document, hg, hl] at hok
        | ok docs =>
            simp [parse_document, hg, hl] at hok
            rw [hok] at hl
            exact ⟨loader, rfl, hl⟩

/-- Witness for C1 amended: concrete Telegram and VK messages, and the
concrete markdown parse whose returned blocks are exactly those of the loader. -/
theorem c1_amended_witness :
    (tg_message_to_document "chatA" tgMsgEx).page_content = "" ∧
    hasKey (tg_message_to_document "chatA" tgMsgEx).metadata "source" = true ∧
    hasKey (tg_message_to_document "chatA" tgMsgEx).metadata "type" = true ∧
    (_vk_message_to_document vkMsgEx 123).page_content = "привет" ∧
    hasKey (_vk_message_to_document vkMsgEx 123).metadata "platform" = true ∧
    (∃ loader, get_document_loader mdPath "single" false = .ok loader ∧
      loadEx loader = .ok [mdBlock]) := by
  have h := c1_amended tgMsgEx "chatA" vkMsgEx 123
  refine ⟨h.1.2.2.2.1 rfl, h.1.2.1, h.1.2.2.1, ?_, h.2.1.2.1, ?_⟩
  · exact h.2.1.2.2.2.2.2.2 "привет" rfl (by decide)
  · exact h.2.2 loadEx mdPath [mdBlock] rfl

/-- C2: evaluation of the directory walk at the example
inputs.  A folder with one valid `.md` entry and one unsupported `.txt`
entry does NOT yield the `.md` Documents: the returned
exception value is truthy, `out.extend` raises TypeError, and the walk
aborts.  A folder with only unsupported entries aborts the same way instead
of returning the EmptyResult error; only a folder whose iteration yields
nothing reaches the EmptyResult branch, and only an all-good folder returns
its Documents. -/
theorem c2_walk_abort_eval :
    parse_documents_in_dir loadEx "docs" [mdPath, txtPath] = .raised typeErrMsg ∧
    parse_documents_in_dir loadEx "docs" [txtPath] = .raised typeErrMsg ∧
    parse_documents_in_dir loadEx "docs" [mdPath] = .docs [mdBlock] ∧
    parse_documents_in_dir loadEx "docs" [] =
      .errValue ("Неверный путь: " ++ "docs") := by
  exact ⟨rfl, rfl, rfl, rfl⟩

/-- C3: evaluation of `parse_document` at a concrete markdown file.  The
returned documents are the SECOND `load()` result of the loader, which never
received the metadata stamps: `source_path` and `type` are absent, `source`
still holds the value the loader itself set (the path string, not the base name),
while the stamped list the loop built (and the code then discarded) does
carry them. -/
theorem c3_stamping_discarded :
    parse_document loadEx mdPath = .ok [mdBlock] ∧
    hasKey mdBlock.metadata "source_path" = false ∧
    hasKey mdBlock.metadata "type" = false ∧
    dictGet mdBlock.metadata "source" = some (.str "docs/a.md") ∧
    mdPath.name = "a.md" ∧
    stampLoop mdPath [mdBlock] =
      [{ page_content := "hello",
         metadata := [("source", .str "a.md"), ("source_path", .str "docs/a.md"),
                      ("type", .str "Document")] }] := by
  exact ⟨rfl, by decide, by decide, by decide, rfl, by decide⟩

/-- C6 counterexample: the claim says errors from the name-resolution
endpoint propagate uncaught, but with an endpoint whose every call raises a
network error, `_resolve_screen_name` returns normally (`none` — the error
was caught by its internal `try/except`), and peer normalization then
surfaces the identifier ValueError, whose text is not the remote error. -/
theorem c6_counterexample :
    _resolve_screen_name resolveDown "durov" = none ∧
    _normalize_peer_ids resolveDown [PeerInput.str "durov"] =
      .error (vkUnresolvedMsg "durov") ∧
    vkUnresolvedMsg "durov" ≠ "ConnectionError: network unreachable" := by
  exact ⟨rfl, rfl, by decide⟩

/-- C6 amended: errors raised by the history endpoint are not caught — the
fetch propagates the very error of its last issued call, with no retry and
no backoff after it — while errors raised by the name-resolution endpoint
are caught inside `_resolve_screen_name` and become a failed resolution
(`None`) instead of propagating. -/
theorem c6_amended :
    (∀ (api : Int → Int → Int → Except String (List VKMsg))
        (peer_id limit : Int) (e : String) (evs : List FetchEvent),
        _fetch_history api peer_id limit = .error (e, evs) →
        ∃ c o, evs.getLast? = some (.call c o) ∧ api peer_id c o = .error e) ∧
    (∀ (resolve : String → Except String ResolveData) (name : String),
        (∀ s, ∃ msg, resolve s = .error msg) →
        _resolve_screen_name resolve name = none) := by
  constructor
  · intro api peer_id limit e evs herr
    unfold _fetch_history at herr
    exact fetchLoop_error_last api peer_id _ limit (limit - 0).toNat 0 0 rfl e evs herr
  · intro resolve name hfail
    obtain ⟨msg, hmsg⟩ := hfail (stripScreenName name)
    simp [_resolve_screen_name, hmsg]

/-- Witness for C6 amended: a history endpoint that is down makes the fetch
propagate exactly its connection error after a single call, and a
name-resolution endpoint that is down yields a silent failed resolution. -/
theorem c6_amended_witness :
    (∃ c o, [FetchEvent.call 5 0].getLast? = some (FetchEvent.call c o) ∧
        apiDown 1 c o = .error "ConnectionError: network unreachable") ∧
    _resolve_screen_name resolveDown "anyone" = none := by
  constructor
  · refine c6_amended.1 apiDown 1 5 "ConnectionError: network unreachable"
      [FetchEvent.call 5 0] ?_
    unfold _fetch_history
    have h := fetchLoop_err apiDown 1 (if (5 : Int) > 200 then 200 else 5) 5 0 0 5
      "ConnectionError: network unreachable" (by norm_num) (by norm_num) rfl
    simpa using h
  · exact c6_amended.2 resolveDown "anyone"
      (fun s => ⟨"ConnectionError: network unreachable", rfl⟩)

/-- C7: the fetch loop always terminates — it issues at most
`max limit 0` remote calls (each non-terminal iteration strictly increases
the fetched count) — and for every `limit ≤ 0` it performs zero iterations,
zero remote calls, and returns an empty sequence. -/
theorem c7_fetch_terminates_bounded :
    (∀ (api : Int → Int → Int → Except String (List VKMsg))
        (peer_id limit : Int), limit ≤ 0 →
        _fetch_history api peer_id limit = .ok ([], [])) ∧
    (∀ (api : Int → Int → Int → Except String (List VKMsg))
        (peer_id limit : Int),
        numCalls (eventsOf (_fetch_history api peer_id limit)) ≤ limit.toNat) := by
  constructor
  · intro api peer_id limit hle
    unfold _fetch_history
    exact fetchLoop_stop api peer_id _ limit 0 0 (by omega)
  · intro api peer_id limit
    unfold _fetch_history
    have h := fetchLoop_numCalls api peer_id (if limit > 200 then 200 else limit)
      limit (limit - 0).toNat 0 0 rfl
    simpa using h

/-- Witness for C7: a negative limit returns the empty fetch with an empty
trace, and a zero limit admits zero remote calls. -/
theorem c7_fetch_terminates_bounded_witness :
    _fetch_history apiFull 1 (-3) = .ok ([], []) ∧
    numCalls (eventsOf (_fetch_history apiFull 1 0)) ≤ 0 := by
  constructor
  · exact c7_fetch_terminates_bounded.1 apiFull 1 (-3) (by norm_num)
  · have h := c7_fetch_terminates_bounded.2 apiFull 1 0
    simpa using h

/-- C8: in every successful fetch trace, remote calls and sleeps alternate —
after every non-empty batch (including a terminal short one) a sleep occurs
before any further remote call, so no two history calls are ever adjacent —
and the trace ends in a call with no following sleep only when that final
call returned an empty batch. -/
theorem c8_sleep_discipline (api : Int → Int → Int → Except String (List VKMsg))
    (peer_id limit : Int) (items : List VKMsg) (evs : List FetchEvent)
    (hok : _fetch_history api peer_id limit = .ok (items, evs)) :
    CallSleepAlt evs ∧
      ∀ c o, evs.getLast? = some (.call c o) → api peer_id c o = .ok [] := by
  unfold _fetch_history at hok
  exact fetchLoop_shape api peer_id _ limit (limit - 0).toNat 0 0 rfl items evs hok

/-- Witness for C8: the trace of a fetch whose only batch is empty is a lone
call with no trailing sleep, and that final call indeed returned the empty
batch. -/
theorem c8_sleep_discipline_witness :
    CallSleepAlt [FetchEvent.call 5 0] ∧
      ∀ c o, [FetchEvent.call 5 0].getLast? = some (FetchEvent.call c o) →
        apiEmpty 1 c o = .ok [] := by
  refine c8_sleep_discipline apiEmpty 1 5 [] [FetchEvent.call 5 0] ?_
  unfold _fetch_history
  have h := fetchLoop_empty apiEmpty 1 (if (5 : Int) > 200 then 200 else 5) 5 0 0 5
    (by norm_num) (by norm_num) rfl
  simpa using h

/-- C4: with `limit = 450` and the 200-message page cap, a history whose
every batch is full yields exactly 3 remote calls with counts
`[200, 200, 50]` and offsets `[0, 200, 400]`; if the second call returns
fewer than 200 items the loop stops after it, issuing no third call; and in
every fetch whatsoever, the requested count of each call equals
`min 200 (limit - fetched)` (the offset of the call equals the number of messages
fetched before it, since `got` and `offset` advance in lockstep from 0). -/
theorem c4_pagination_counts :
    (∀ (api : Int → Int → Int → Except String (List VKMsg)) (peer_id : Int),
        (∀ c o : Int, 0 < c → ∃ batch, api peer_id c o = .ok batch ∧
            batch.length = c.toNat) →
        callsOf (eventsOf (_fetch_history api peer_id 450)) =
          [(200, 0), (200, 200), (50, 400)]) ∧
    (∀ (api : Int → Int → Int → Except String (List VKMsg)) (peer_id : Int)
        (b1 b2 : List VKMsg),
        api peer_id 200 0 = .ok b1 → b1.length = 200 →
        api peer_id 200 200 = .ok b2 → b2.length < 200 →
        callsOf (eventsOf (_fetch_history api peer_id 450)) =
          [(200, 0), (200, 200)]) ∧
    (∀ (api : Int → Int → Int → Except String (List VKMsg))
        (peer_id limit c o : Int),
        FetchEvent.call c o ∈ eventsOf (_fetch_history api peer_id limit) →
        c = min 200 (limit - o)) := by
  refine ⟨?_, ?_, ?_⟩
  · intro api peer_id hfull
    obtain ⟨b1, ha1, hl1⟩ := hfull 200 0 (by norm_num)
    obtain ⟨b2, ha2, hl2⟩ := hfull 200 200 (by norm_num)
    obtain ⟨b3, ha3, hl3⟩ := hfull 50 400 (by norm_num)
    have hne1 : b1 ≠ [] := by intro hh; rw [hh] at hl1; simp at hl1
    have hne2 : b2 ≠ [] := by intro hh; rw [hh] at hl2; simp at hl2
    have hne3 : b3 ≠ [] := by intro hh; rw [hh] at hl3; simp at hl3
    have h3 : fetchLoop api peer_id 200 450 400 400 =
        .ok (b3 ++ [], .call 50 400 :: .sleep :: []) := by
      refine fetchLoop_full_ok api peer_id 200 450 400 400 50 b3 [] []
        (by omega) (by omega) ha3 hne3 (by omega) ?_
      exact fetchLoop_stop api peer_id 200 450 _ _ (by omega)
    have h2 : fetchLoop api peer_id 200 450 200 200 =
        .ok (b2 ++ (b3 ++ []),
          .call 200 200 :: .sleep :: (.call 50 400 :: .sleep :: [])) := by
      refine fetchLoop_full_ok api peer_id 200 450 200 200 200 b2 (b3 ++ [])
        (.call 50 400 :: .sleep :: []) (by omega) (by omega) ha2 hne2 (by omega) ?_
      have hcast : (200 : Int) + (b2.length : Int) = 400 := by omega
      rw [hcast]
      exact h3
    have h1 : fetchLoop api peer_id 200 450 0 0 =
        .ok (b1 ++ (b2 ++ (b3 ++ [])),
          .call 200 0 :: .sleep ::
            (.call 200 200 :: .sleep :: (.call 50 400 :: .sleep :: []))) := by
      refine fetchLoop_full_ok api peer_id 200 450 0 0 200 b1 (b2 ++ (b3 ++ []))
        (.call 200 200 :: .sleep :: (.call 50 400 :: .sleep :: []))
        (by omega) (by omega) ha1 hne1 (by omega) ?_
      have hcast : (0 : Int) + (b1.length : Int) = 200 := by omega
      rw [hcast]
      exact h2
    have hfh : _fetch_history api peer_id 450 = fetchLoop api peer_id 200 450 0 0 := by
      unfold _fetch_history
      norm_num
    rw [hfh, h1]
    simp [eventsOf, callsOf]
  · intro api peer_id b1 b2 ha1 hl1 ha2 hl2
    have hne1 : b1 ≠ [] := by intro hh; rw [hh] at hl1; simp at hl1
    have hfh : _fetch_history api peer_id 450 = fetchLoop api peer_id 200 450 0 0 := by
      unfold _fetch_history
      norm_num
    by_cases hb2 : b2 = []
    · have h2 : fetchLoop api peer_id 200 450 200 200 =
          .ok ([], [.call 200 200]) := by
        refine fetchLoop_empty api peer_id 200 450 200 200 200 (by omega) (by omega) ?_
        rw [hb2] at ha2
        exact ha2
      have h1 : fetchLoop api peer_id 200 450 0 0 =
          .ok (b1 ++ [], .call 200 0 :: .sleep :: [.call 200 200]) := by
        refine fetchLoop_full_ok api peer_id 200 450 0 0 200 b1 [] [.call 200 200]
          (by omega) (by omega) ha1 hne1 (by omega) ?_
        have hcast : (0 : Int) + (b1.length : Int) = 200 := by omega
        rw [hcast]
        exact h2
      rw [hfh, h1]
      simp [eventsOf, callsOf]
    · have h2 : fetchLoop api peer_id 200 450 200 200 =
          .ok (b2, [.call 200 200, .sleep]) :=
        fetchLoop_short api peer_id 200 450 200 200 200 b2 (by omega) (by omega)
          ha2 hb2 (by omega)
      have h1 : fetchLoop api peer_id 200 450 0 0 =
          .ok (b1 ++ b2, .call 200 0 :: .sleep :: [.call 200 200, .sleep]) := by
        refine fetchLoop_full_ok api peer_id 200 450 0 0 200 b1 b2
          [.call 200 200, .sleep] (by omega) (by omega) ha1 hne1 (by omega) ?_
        have hcast : (0 : Int) + (b1.length : Int) = 200 := by omega
        rw [hcast]
        exact h2
      rw [hfh, h1]
      simp [eventsOf, callsOf]
  · intro api peer_id limit c o hmem
    have hpc : (if limit > 200 then (200 : Int) else limit) = min 200 limit := by
      by_cases hl : limit > 200 <;> simp [hl] <;> omega
    unfold _fetch_history at hmem
    rw [hpc] at hmem
    exact fetchLoop_call_count api peer_id (min 200 limit) limit rfl
      (limit - 0).toNat 0 0 rfl (by norm_num) rfl c o hmem

/-- Witness for C4: the always-full endpoint yields the three calls
`(200,0), (200,200), (50,400)`; the endpoint whose second page holds 120
items yields exactly two calls; and a concrete call of an empty dialog
requested `min 200 (limit - offset)` messages. -/
theorem c4_pagination_counts_witness :
    callsOf (eventsOf (_fetch_history apiFull 1 450)) =
      [(200, 0), (200, 200), (50, 400)] ∧
    callsOf (eventsOf (_fetch_history apiShort2 1 450)) = [(200, 0), (200, 200)] ∧
    (7 : Int) = min 200 (7 - 0) := by
  refine ⟨?_, ?_, ?_⟩
  · refine c4_pagination_counts.1 apiFull 1 ?_
    intro c o hc
    exact ⟨List.replicate c.toNat vkMsgBlank, rfl, List.length_replicate _ _⟩
  · exact c4_pagination_counts.2.1 apiShort2 1
      (List.replicate 200 vkMsgBlank) (List.replicate 120 vkMsgBlank)
      rfl (List.length_replicate _ _) rfl
      (by rw [List.length_replicate]; norm_num)
  · have ht : _fetch_history apiEmpty 1 7 = .ok ([], [.call 7 0]) := by
      unfold _fetch_history
      have h := fetchLoop_empty apiEmpty 1 (if (7 : Int) > 200 then 200 else 7) 7
        0 0 7 (by norm_num) (by norm_num) rfl
      simpa using h
    refine c4_pagination_counts.2.2 apiEmpty 1 7 7 0 ?_
    rw [ht]
    simp [eventsOf]
